import Mathlib

/-!
Verification development for the `ltsteamplugin` repository.

The repository has three Python source files:
  * `backend/achievements.py` — invokes the external `SAM.CLI.exe` tool
    (`_run_sam_cli`), thin operations on top of it, and a bulk importer
    (`import_achievements`);
  * `scripts/build_zip.py` — packages allow-listed paths into a zip archive,
    excluding paths containing deny substrings (`should_exclude`, `main`);
  * `scripts/get_version.py` — reads the `version` field of `plugin.json`.

We shallowly embed the code: Python values are modelled by `JVal`; Python
exceptions are modelled by `Except String` (the error carries `str(exc)`);
the process environment (tool existence, spawn/communicate) is a record of
oracles; logging (`logger`, `_write_debug_log`) is a best-effort side effect
with no influence on results and is elided; the `time.sleep` pacing is a
real-time effect with no influence on results and is elided.  Subprocess
spawns are made observable by returning, next to the Python result, the list
of spawned command lines (empty or singleton for one `_run_sam_cli` call).
-/

/-- Model of a Python/JSON value (as produced by `json.loads` and as passed
to `import_achievements`).  Numbers are modelled as integers only; the
claims under verification do not involve float payloads. -/
inductive JVal where
  | jnull : JVal
  | jbool : Bool → JVal
  | jint : Int → JVal
  | jstr : String → JVal
  | jarr : List JVal → JVal
  | jobj : List (String × JVal) → JVal

namespace JVal

/-- Python truthiness (`bool(v)`). -/
def pyTruthy : JVal → Bool
  | .jnull => false
  | .jbool b => b
  | .jint n => n ≠ 0
  | .jstr s => s ≠ ""
  | .jarr xs => ¬ xs.isEmpty
  | .jobj kvs => ¬ kvs.isEmpty

/-- Is this value a Python `dict`? -/
def isObj : JVal → Bool
  | .jobj _ => true
  | _ => false

end JVal

/-- Python `dict` lookup on the underlying association list.  Python dict insertion
overwrites earlier bindings for the same key, so the *last* binding wins. -/
def dictGet : List (String × JVal) → String → JVal → JVal
  | [], _, dflt => dflt
  | (k', v) :: rest, k, dflt => dictGet rest k (if k' = k then v else dflt)

/-- Python `dict` key-membership (`k in d`). -/
def dictHasKey (kvs : List (String × JVal)) (k : String) : Bool :=
  kvs.any (fun p => p.1 = k)

/-- Optional `dict` lookup on a `JVal`, used only to state theorems:
`some v` when the value is a dict binding the key, else `none`. -/
def objGet? (v : JVal) (k : String) : Option JVal :=
  match v with
  | .jobj kvs => if dictHasKey kvs k then some (dictGet kvs k .jnull) else none
  | _ => none

/-- Python `d.get(k, dflt)`: attribute access raises on a non-dict
(`AttributeError`), modelled as `Except.error`. -/
def pyGet (v : JVal) (k : String) (dflt : JVal) : Except String JVal :=
  match v with
  | .jobj kvs => .ok (dictGet kvs k dflt)
  | _ => .error "AttributeError: object has no attribute get"

/-- Characters treated as whitespace by Python's `str.strip()` (ASCII part). -/
def pyIsSpace (c : Char) : Bool :=
  c = ' ' ∨ c = '\t' ∨ c = '\n' ∨ c = '\r' ∨ c = Char.ofNat 11 ∨ c = Char.ofNat 12

/-- Python `str.strip()` on a character list. -/
def pyStripList (l : List Char) : List Char :=
  ((l.dropWhile pyIsSpace).reverse.dropWhile pyIsSpace).reverse

/-- Python `str.strip()` on a `String`. -/
def pyStripStr (s : String) : String :=
  ⟨pyStripList s.data⟩

/-- Python `s.find(c)` for a single character, as an `Option` (the code only
compares the result with `-1`, i.e. tests presence). -/
def pyFind : List Char → Char → Option Nat
  | [], _ => none
  | c :: rest, t => if c = t then some 0 else (pyFind rest t).map (· + 1)

/-- Python `s.rfind(c)` for a single character, as an `Option`. -/
def pyRfind (l : List Char) (c : Char) : Option Nat :=
  (pyFind l.reverse c).map (fun i => l.length - 1 - i)

/-- Python slice `s[a:b]`. -/
def pySlice (l : List Char) (a b : Nat) : List Char :=
  (l.take b).drop a

/-- Python `str(v)` / `repr` in f-string interpolation, to the fidelity the
claims need (error messages in practice are strings). -/
def pyStr : JVal → String
  | .jnull => "None"
  | .jbool true => "True"
  | .jbool false => "False"
  | .jint n => toString n
  | .jstr s => s
  | .jarr _ => "[...]"
  | .jobj _ => "\x7b...\x7d"

/-! ## A model of `json.loads`

A recursive-descent JSON parser over character lists, modelling Python's
`json.loads` (external standard library).  Model restrictions: numbers are
integers only (no float/exponent forms) and string escapes cover the common
cases without `\u`; the claims under verification involve neither. -/

/-- JSON inter-token whitespace. -/
def jsonWs (c : Char) : Bool :=
  c = ' ' ∨ c = '\t' ∨ c = '\n' ∨ c = '\r'

/-- Skip JSON whitespace. -/
def skipWs (l : List Char) : List Char :=
  l.dropWhile jsonWs

/-- Parse the body of a JSON string after the opening quote; returns the
decoded string and the remaining input. -/
def parseStringBody : List Char → Option (String × List Char)
  | [] => none
  | '"' :: rest => some ("", rest)
  | '\\' :: e :: rest =>
    let dec : Option Char :=
      if e = '"' then some '"'
      else if e = '\\' then some '\\'
      else if e = '/' then some '/'
      else if e = 'n' then some '\n'
      else if e = 't' then some '\t'
      else if e = 'r' then some '\r'
      else if e = 'b' then some (Char.ofNat 8)
      else if e = 'f' then some (Char.ofNat 12)
      else none
    match dec with
    | some d => (parseStringBody rest).map (fun p => (⟨d :: p.1.data⟩, p.2))
    | none => none
  | c :: rest => (parseStringBody rest).map (fun p => (⟨c :: p.1.data⟩, p.2))

/-- Accumulate a run of decimal digits. -/
def parseDigitsAux : List Char → Nat → Nat × List Char
  | c :: rest, acc =>
    if c.isDigit then parseDigitsAux rest (acc * 10 + (c.toNat - 48)) else (acc, c :: rest)
  | [], acc => (acc, [])

/-- Parse a JSON integer (optional minus sign then digits). -/
def parseNumber : List Char → Option (JVal × List Char)
  | '-' :: c :: rest =>
    if c.isDigit then
      let p := parseDigitsAux (c :: rest) 0
      some (.jint (-(p.1 : Int)), p.2)
    else none
  | c :: rest =>
    if c.isDigit then
      let p := parseDigitsAux (c :: rest) 0
      some (.jint (p.1 : Int), p.2)
    else none
  | [] => none

/-- Drop a literal character sequence from the front of the input, if present. -/
def dropLit : List Char → List Char → Option (List Char)
  | [], l => some l
  | p :: ps, c :: cs => if c = p then dropLit ps cs else none
  | _ :: _, [] => none

mutual

/-- Parse one JSON value (fuel-indexed). -/
def parseValue : Nat → List Char → Option (JVal × List Char)
  | 0, _ => none
  | fuel + 1, l =>
    match skipWs l with
    | [] => none
    | c :: rest =>
      if c = '{' then
        parseObjBody fuel rest
      else if c = '[' then
        parseArrBody fuel rest
      else if c = '"' then
        (parseStringBody rest).map (fun p => (.jstr p.1, p.2))
      else
        match dropLit "true".data (c :: rest) with
        | some r => some (.jbool true, r)
        | none =>
          match dropLit "false".data (c :: rest) with
          | some r => some (.jbool false, r)
          | none =>
            match dropLit "null".data (c :: rest) with
            | some r => some (.jnull, r)
            | none => parseNumber (c :: rest)

/-- After an opening brace: an empty object or a member list. -/
def parseObjBody : Nat → List Char → Option (JVal × List Char)
  | 0, _ => none
  | fuel + 1, l =>
    match skipWs l with
    | '}' :: rest => some (.jobj [], rest)
    | l2 => (parseMembers fuel l2).map (fun p => (.jobj p.1, p.2))

/-- One or more `"key": value` members, ended by a closing brace. -/
def parseMembers : Nat → List Char → Option (List (String × JVal) × List Char)
  | 0, _ => none
  | fuel + 1, l =>
    match skipWs l with
    | '"' :: rest =>
      match parseStringBody rest with
      | none => none
      | some (k, r1) =>
        match skipWs r1 with
        | ':' :: r2 =>
          match parseValue fuel r2 with
          | none => none
          | some (v, r3) =>
            match skipWs r3 with
            | ',' :: r4 => (parseMembers fuel r4).map (fun p => ((k, v) :: p.1, p.2))
            | '}' :: r4 => some ([(k, v)], r4)
            | _ => none
        | _ => none
    | _ => none

/-- After an opening bracket: an empty array or an element list. -/
def parseArrBody : Nat → List Char → Option (JVal × List Char)
  | 0, _ => none
  | fuel + 1, l =>
    match skipWs l with
    | ']' :: rest => some (.jarr [], rest)
    | l2 => (parseElements fuel l2).map (fun p => (.jarr p.1, p.2))

/-- One or more array elements, ended by a closing bracket. -/
def parseElements : Nat → List Char → Option (List JVal × List Char)
  | 0, _ => none
  | fuel + 1, l =>
    match parseValue fuel l with
    | none => none
    | some (v, r1) =>
      match skipWs r1 with
      | ',' :: r2 => (parseElements fuel r2).map (fun p => (v :: p.1, p.2))
      | ']' :: r2 => some ([v], r2)
      | _ => none

end

/-- Model of `json.loads`: parse one value and require only whitespace to
remain (Python raises `JSONDecodeError` on trailing data; modelled `none`). -/
def jsonLoads (l : List Char) : Option JVal :=
  match parseValue (3 * l.length + 3) l with
  | some (v, rest) => if (skipWs rest).isEmpty then some v else none
  | none => none

/-! ## `backend/achievements.py` — the External Tool Invoker

The process environment is a record of oracles.  `spawn` models
`subprocess.Popen` + `communicate` + the decode chain: it either raises
(`Except.error` carrying `str(e)`) or yields the decoded stdout text (the
decode chain ends in a lossy fallback and never raises; stderr only feeds
the elided debug log).  `pathExists` models `os.path.exists`. -/
structure SamEnv where
  pluginDir : String
  pathExists : String → Bool
  spawn : List String → Except String (List Char)

/-- Path `os.path.join(plugin_dir, "vendor", "SAM", "SAM.CLI.exe")` (separator
written `/`; the separator choice plays no role in the claims). -/
def samCliPath (env : SamEnv) : String :=
  env.pluginDir ++ "/vendor/SAM/SAM.CLI.exe"

/-- The command line `[sam_cli_path, command, str(appid)]` extended with the extra
arguments (already strings, so `str(arg)` is the identity). -/
def mkCmdArgs (env : SamEnv) (command : String) (appid : Int) (args : List String) :
    List String :=
  samCliPath env :: command :: toString appid :: args

/-- The error dictionaries built throughout the module:
`{"success": False, "error": msg}`. -/
def errResult (msg : String) : JVal :=
  .jobj [("success", .jbool false), ("error", .jstr msg)]

/-- Embeds `_run_sam_cli(command, appid, *args)`.  Returns the Python result
together with the list of spawned command lines (observability of "no
process is spawned"). -/
def runSamCli (env : SamEnv) (command : String) (appid : Int) (args : List String) :
    JVal × List (List String) :=
  if env.pathExists (samCliPath env) = false then
    (errResult "SAM.CLI tool not found. Please reinstall LuaTools.", [])
  else
    let cmdArgs := mkCmdArgs env command appid args
    match env.spawn cmdArgs with
    | .error e => (errResult e, [cmdArgs])
    | .ok stdout =>
      if stdout.isEmpty then
        (errResult "No output from SAM CLI", [cmdArgs])
      else
        let fullOutput := pyStripList stdout
        match pyFind fullOutput '{', pyRfind fullOutput '}' with
        | some jsonStart, some jsonEnd =>
          match jsonLoads (pySlice fullOutput jsonStart (jsonEnd + 1)) with
          | some v => (v, [cmdArgs])
          | none => (errResult "Failed to parse SAM CLI output", [cmdArgs])
        | _, _ => (errResult "Invalid output from SAM CLI", [cmdArgs])

/-- Embeds `get_player_achievements(appid)`. -/
def get_player_achievements (env : SamEnv) (appid : Int) : JVal × List (List String) :=
  runSamCli env "get-achievements" appid []

/-- Embeds `unlock_achievement(appid, achievement_id)`. -/
def unlock_achievement (env : SamEnv) (appid : Int) (achievementId : String) :
    JVal × List (List String) :=
  runSamCli env "unlock" appid [achievementId]

/-- Embeds `lock_achievement(appid, achievement_id)`. -/
def lock_achievement (env : SamEnv) (appid : Int) (achievementId : String) :
    JVal × List (List String) :=
  runSamCli env "lock" appid [achievementId]

/-- Embeds `get_all_achievements_for_app(appid)`. -/
def get_all_achievements_for_app (env : SamEnv) (appid : Int) : JVal × List (List String) :=
  runSamCli env "get-achievements" appid []

/-! ## `import_achievements` -/

/-- Python `s.strip()` via attribute access: raises (`AttributeError`) on a
non-string value. -/
def pyStripAttr (v : JVal) : Except String String :=
  match v with
  | .jstr s => .ok (pyStripStr s)
  | _ => .error "AttributeError: object has no attribute strip"

/-- The comprehension `[ach for ach in achievements_list if ach.get("unlocked", False)]`. -/
def filterUnlocked : List JVal → Except String (List JVal)
  | [] => .ok []
  | a :: rest => do
    let u ← pyGet a "unlocked" (.jbool false)
    let tail ← filterUnlocked rest
    if u.pyTruthy then .ok (a :: tail) else .ok tail

/-- The comprehension `[ach.get("id", "").strip() for ach in unlocked_to_import if
ach.get("id", "").strip()]`. -/
def extractIds : List JVal → Except String (List String)
  | [] => .ok []
  | a :: rest => do
    let idv ← pyGet a "id" (.jstr "")
    let s ← pyStripAttr idv
    let tail ← extractIds rest
    if s ≠ "" then .ok (s :: tail) else .ok tail

/-- The comprehension `[ach_id.strip() for ach_id in achievements_list if ach_id.strip()]`. -/
def stripIds : List JVal → Except String (List String)
  | [] => .ok []
  | v :: rest => do
    let s ← pyStripAttr v
    let tail ← stripIds rest
    if s ≠ "" then .ok (s :: tail) else .ok tail

/-- The per-item unlock behaviour the import loop is built on.  The source
calls `unlock_achievement`, which cannot raise, but the loop guards against
a raising call; the oracle keeps that guard observable. -/
def UnlockFn : Type :=
  Int → String → Except String JVal

/-- One iteration of the import loop: the increments to
`(imported_count, failed_count, failed_list)` for one achievement id. -/
def importStep (unlock : UnlockFn) (appid : Int) (achId : String) :
    Nat × Nat × List String :=
  let attempt : Except String (Option String) := do
    let result ← unlock appid achId
    let s ← pyGet result "success" .jnull
    if s.pyTruthy then
      pure none
    else do
      let e ← pyGet result "error" (.jstr "Unknown error")
      pure (some (pyStr e))
  match attempt with
  | .ok none => (1, 0, [])
  | .ok (some errorMsg) => (0, 1, [achId ++ ": " ++ errorMsg])
  | .error exc => (0, 1, [achId ++ ": Exception - " ++ exc])

/-- The import loop over `achievement_ids`, accumulating
`(imported_count, failed_count, failed_list)` in input order. -/
def importLoop (unlock : UnlockFn) (appid : Int) : List String → Nat × Nat × List String
  | [] => (0, 0, [])
  | achId :: rest =>
    let step := importStep unlock appid achId
    let acc := importLoop unlock appid rest
    (step.1 + acc.1, step.2.1 + acc.2.1, step.2.2 ++ acc.2.2)

/-- Lines 180–231 of `import_achievements`: from the computed
`achievement_ids` to the response dictionary.  Also returns the list of ids
passed to `unlock_achievement`, in call order. -/
def importFromIds (unlock : UnlockFn) (appid : Int) (achievementIds : List String) :
    JVal × List String :=
  if achievementIds.isEmpty then
    (errResult "No unlocked achievements found in backup", [])
  else
    let acc := importLoop unlock appid achievementIds
    let importedCount := acc.1
    let failedCount := acc.2.1
    let failedList := acc.2.2
    let resultMsg :=
      "Imported " ++ toString importedCount ++ " achievement(s)" ++
        (if failedCount > 0 then ", " ++ toString failedCount ++ " failed" else "")
    let response : List (String × JVal) :=
      [("success", .jbool (importedCount > 0)),
       ("imported", .jint (importedCount : Int)),
       ("failed", .jint (failedCount : Int)),
       ("total_attempted", .jint (achievementIds.length : Int)),
       ("message", .jstr resultMsg)]
    let response :=
      if failedList.isEmpty then response
      else response ++ [("failed_details", .jarr ((failedList.take 10).map JVal.jstr))]
    (.jobj response, achievementIds)

/-- The legacy-format extraction stage: filter to `unlocked` entries, then
extract and trim the ids. -/
def legacyExtract (l : List JVal) : Except String (List String) := do
  let unlocked ← filterUnlocked l
  extractIds unlocked

/-- Embeds `import_achievements(appid, achievements_list)`.  The `appid` is already
an integer, so `int(appid)` is the identity.  An exception in the format
detection / extraction stage is caught by the outer handler and converted to
`{"success": False, "error": str(exc)}`. -/
def import_achievements (unlock : UnlockFn) (appid : Int) (achievementsList : JVal) :
    JVal × List String :=
  match achievementsList with
  | .jarr [] => (errResult "Achievements list is empty", [])
  | .jarr (first :: rest) =>
    match first with
    | .jobj _ =>
      match legacyExtract (first :: rest) with
      | .error exc => (errResult exc, [])
      | .ok ids => importFromIds unlock appid ids
    | .jstr _ =>
      match stripIds (first :: rest) with
      | .error exc => (errResult exc, [])
      | .ok ids => importFromIds unlock appid ids
    | _ => (errResult "Invalid achievement list format", [])
  | _ => (errResult "Achievements list must be an array", [])

/-- The unlock behaviour actually used by the source: a call to
`unlock_achievement`, which never raises. -/
def realUnlock (env : SamEnv) : UnlockFn :=
  fun appid achId => .ok (unlock_achievement env appid achId).1

/-- The composition of `import_achievements` with the real `unlock_achievement`,
returning the result together with all spawned command lines. -/
def import_achievements_run (env : SamEnv) (appid : Int) (achievementsList : JVal) :
    JVal × List (List String) :=
  let r := import_achievements (realUnlock env) appid achievementsList
  (r.1, r.2.flatMap (fun achId => (unlock_achievement env appid achId).2))

/-! ## `scripts/build_zip.py` -/

/-- Does the list start with the given character sequence? -/
def startsWithChars : List Char → List Char → Bool
  | _, [] => true
  | [], _ :: _ => false
  | c :: cs, p :: ps => c = p ∧ startsWithChars cs ps

/-- Python substring containment `needle in haystack`. -/
def containsSub (needle : List Char) : List Char → Bool
  | [] => needle.isEmpty
  | c :: rest => startsWithChars (c :: rest) needle ∨ containsSub needle rest

/-- Embeds `should_exclude(path_str, exclude_patterns)`: true when any pattern is a
substring of the path string. -/
def should_exclude (pathStr : String) (excludePatterns : List String) : Bool :=
  excludePatterns.any (fun pat => containsSub pat.data pathStr.data)

/-- The fixed allow-list of top-level entries in `main()`. -/
def includeList : List String :=
  ["backend", "public", "plugin.json", "requirements.txt", "readme"]

/-- The fixed deny-substring list in `main()`. -/
def exclude_patterns : List String :=
  ["__pycache__", ".pyc", ".pyo", ".git", ".gitignore", ".zip",
   "temp_dl", "data", "update_pending.zip", "update_pending.json",
   "api.json", "loadedappids.txt", "appidlogs.txt"]

/-- Filesystem oracle for the packaging script: existence and kind of the
allow-listed entries, and for a directory entry the root-relative raw paths
(possibly with `\` separators) of the regular files below it, in `rglob`
order. -/
structure BuildFS where
  pathExists : String → Bool
  isDir : String → Bool
  filesUnder : String → List String

/-- Python `str(p).replace('\\', '/')`. -/
def normalizeSep (s : String) : String :=
  ⟨s.data.map (fun c => if c = '\\' then '/' else c)⟩

/-- The archive entries contributed by one allow-listed item in `main()`:
skip a missing entry; for a directory keep each file whose normalized
root-relative path survives `should_exclude`; a plain file is written
unconditionally. -/
def includeEntryFiles (fs : BuildFS) (includeItem : String) : List String :=
  if fs.pathExists includeItem = false then []
  else if fs.isDir includeItem then
    (fs.filesUnder includeItem).filterMap (fun fp =>
      let relPath := normalizeSep fp
      if should_exclude relPath exclude_patterns then none else some relPath)
  else [normalizeSep includeItem]

/-- All entry names written into the output zip by `main()`, in order. -/
def buildZipEntries (fs : BuildFS) : List String :=
  includeList.flatMap (fun item => includeEntryFiles fs item)

/-! ## `scripts/get_version.py` -/

/-- Environment for the version reader: opening and reading
`<dir>/plugin.json` either raises (missing file, I/O error) or yields the
file's text. -/
structure VersionEnv where
  readPluginJson : Except String (List Char)

/-- Embeds `main()` of `get_version.py`, given a directory argument: returns the
printed line and the process exit code.  `json.load` failure and `.get` on a
non-dict raise into the `except` handler, which prints `unknown` and exits
with code 1. -/
def get_version_main (env : VersionEnv) : String × Nat :=
  let attempt : Except String String := do
    let content ← env.readPluginJson
    let data ← match jsonLoads content with
      | some v => Except.ok v
      | none => Except.error "json.JSONDecodeError"
    let version ← pyGet data "version" (.jstr "unknown")
    pure (pyStr version)
  match attempt with
  | .ok line => (line, 0)
  | .error _ => ("unknown", 1)

/-- The fixed "tool not found" error message. -/
def toolNotFoundMsg : String :=
  "SAM.CLI tool not found. Please reinstall LuaTools."

/-- Environment with the tool absent, used to instantiate theorems. -/
def noToolEnv : SamEnv :=
  { pluginDir := "plugins/luatools"
    pathExists := fun _ => false
    spawn := fun _ => .ok [] }

/-- Environment whose manifest file holds `{"version":"1.2.3"}`. -/
def versionOkEnv : VersionEnv :=
  { readPluginJson := .ok "\x7b\"version\":\"1.2.3\"\x7d".data }

/-- Environment whose manifest file is missing (`open` raises). -/
def versionMissingEnv : VersionEnv :=
  { readPluginJson := .error "FileNotFoundError" }

/-- Root containing `backend/x.pyc` and `backend/x.py`, for the packaging
example. -/
def pycExampleFS : BuildFS :=
  { pathExists := fun s => s = "backend"
    isDir := fun s => s = "backend"
    filesUnder := fun s => if s = "backend" then ["backend/x.pyc", "backend/x.py"] else [] }

/-- Does the unlock call for this id count as a success in the loop? -/
def unlockSucceeds (unlock : UnlockFn) (appid : Int) (achId : String) : Bool :=
  match unlock appid achId with
  | .ok result =>
    match pyGet result "success" .jnull with
    | .ok s => s.pyTruthy
    | .error _ => false
  | .error _ => false

/-- The failure-detail line recorded for this id, when the call fails. -/
def unlockFailureMsg (unlock : UnlockFn) (appid : Int) (achId : String) : Option String :=
  match unlock appid achId with
  | .ok result =>
    match pyGet result "success" .jnull with
    | .ok s =>
      if s.pyTruthy then none
      else
        match pyGet result "error" (.jstr "Unknown error") with
        | .ok e => some (achId ++ ": " ++ pyStr e)
        | .error exc => some (achId ++ ": Exception - " ++ exc)
    | .error exc => some (achId ++ ": Exception - " ++ exc)
  | .error exc => some (achId ++ ": Exception - " ++ exc)

/-- The response dictionary `import_achievements` builds once the loop ran,
with the loop expressed through per-item counts and detail lines. -/
def importResponseKvs (unlock : UnlockFn) (appid : Int) (ids : List String) :
    List (String × JVal) :=
  let s := ids.countP (unlockSucceeds unlock appid)
  let f := ids.countP (fun i => ! unlockSucceeds unlock appid i)
  let d := ids.filterMap (unlockFailureMsg unlock appid)
  [("success", .jbool (s > 0)),
   ("imported", .jint (s : Int)),
   ("failed", .jint (f : Int)),
   ("total_attempted", .jint (ids.length : Int)),
   ("message", .jstr ("Imported " ++ toString s ++ " achievement(s)" ++
     (if f > 0 then ", " ++ toString f ++ " failed" else "")))] ++
  (if d.isEmpty then [] else [("failed_details", .jarr ((d.take 10).map JVal.jstr))])

/-- Unlock oracle that always reports success. -/
def alwaysSuccessUnlock : UnlockFn :=
  fun _ _ => .ok (.jobj [("success", .jbool true)])

/-- Unlock oracle that always raises (message `boom`). -/
def alwaysRaiseUnlock : UnlockFn :=
  fun _ _ => .error "boom"

/-- Twelve achievement identifiers, to exercise the 10-entry cap. -/
def idTwelve : List String :=
  ["a01", "a02", "a03", "a04", "a05", "a06", "a07", "a08", "a09", "a10", "a11", "a12"]

/-- Total `d.get(k, dflt)` for stating theorems (the hypotheses make the
raising case impossible). -/
def objGetD (v : JVal) (k : String) (dflt : JVal) : JVal :=
  match v with
  | .jobj kvs => dictGet kvs k dflt
  | _ => dflt

/-- The identifier a legacy record contributes: its `id` field trimmed,
dropped when empty. -/
def legacyIdOf (v : JVal) : Option String :=
  let s := pyStripStr (pyStr (objGetD v "id" (.jstr "")))
  if s = "" then none else some s

/-- The spec's description of the legacy path: keep elements whose
`unlocked` field is truthy, then extract and trim ids, dropping empties. -/
def legacySpecIds (elems : List JVal) : List String :=
  (elems.filter (fun v => (objGetD v "unlocked" (.jbool false)).pyTruthy)).filterMap
    legacyIdOf

/-- The legacy example list `[{"id":"a","unlocked":true},{"id":"b","unlocked":false}]`. -/
def c5Elems : List JVal :=
  [.jobj [("id", .jstr "a"), ("unlocked", .jbool true)],
   .jobj [("id", .jstr "b"), ("unlocked", .jbool false)]]

/-- Unlock oracle succeeding on `"g"` and raising on anything else. -/
def mixedUnlock : UnlockFn :=
  fun _ i => if i = "g" then .ok (.jobj [("success", .jbool true)]) else .error "boom"

/-- The response produced for `["g","b"]` under `mixedUnlock`. -/
def c10Res : JVal :=
  .jobj [("success", .jbool true), ("imported", .jint 1), ("failed", .jint 1),
    ("total_attempted", .jint 2),
    ("message", .jstr "Imported 1 achievement(s), 1 failed"),
    ("failed_details", .jarr [.jstr "b: Exception - boom"])]

/-- Environment whose tool exists but whose spawn raises. -/
def spawnFailEnv : SamEnv :=
  { pluginDir := "plugins/luatools"
    pathExists := fun _ => true
    spawn := fun _ => .error "spawn failed" }

/-- Environment whose tool prints a diagnostic line before its JSON object. -/
def jsonOutputEnv : SamEnv :=
  { pluginDir := "plugins/luatools"
    pathExists := fun _ => true
    spawn := fun _ => .ok ("INFO: starting\n\x7b\"success\": true\x7d\n".data) }

/-! ## Theorems -/

lemma runSamCli_tool_missing (env : SamEnv) (command : String) (appid : Int)
    (args : List String) (h : env.pathExists (samCliPath env) = false) :
    runSamCli env command appid args = (errResult toolNotFoundMsg, []) := by
  simp [runSamCli, h, toolNotFoundMsg]

/-- C3: if the external tool's path does not exist, every operation
(fetch-all, unlock-one, lock-one, and each per-item call inside import)
returns `success=false` with the fixed "tool not found" message, and no
child process is spawned. -/
theorem c3_tool_missing_no_spawn (env : SamEnv) (appid : Int) (achId : String)
    (lst : JVal) (h : env.pathExists (samCliPath env) = false) :
    get_player_achievements env appid = (errResult toolNotFoundMsg, []) ∧
    unlock_achievement env appid achId = (errResult toolNotFoundMsg, []) ∧
    lock_achievement env appid achId = (errResult toolNotFoundMsg, []) ∧
    get_all_achievements_for_app env appid = (errResult toolNotFoundMsg, []) ∧
    realUnlock env appid achId = .ok (errResult toolNotFoundMsg) ∧
    (import_achievements_run env appid lst).2 = [] := by
  refine ⟨runSamCli_tool_missing env _ appid _ h, runSamCli_tool_missing env _ appid _ h,
    runSamCli_tool_missing env _ appid _ h, runSamCli_tool_missing env _ appid _ h, ?_, ?_⟩
  · simp [realUnlock, unlock_achievement, runSamCli_tool_missing env _ appid _ h]
  · have hu : ∀ s : String, (unlock_achievement env appid s).2 = [] := by
      intro s
      simp [unlock_achievement, runSamCli_tool_missing env _ appid _ h]
    simp [import_achievements_run, hu]

/-- Witness for C3 at a concrete environment. -/
theorem c3_tool_missing_no_spawn_witness :
    get_player_achievements noToolEnv 10 = (errResult toolNotFoundMsg, []) :=
  (c3_tool_missing_no_spawn noToolEnv 10 "ACH_1" (JVal.jarr []) rfl).1

/-- C7: an empty array, a non-list input, and a first element that is
neither a record nor a string each yield the corresponding structured error
without any tool invocation. -/
theorem c7_import_input_validation (env : SamEnv) (appid : Int) :
    (import_achievements_run env appid (.jarr []) =
        (errResult "Achievements list is empty", [])) ∧
    (∀ v : JVal, (∀ elems, v ≠ .jarr elems) →
      import_achievements_run env appid v =
        (errResult "Achievements list must be an array", [])) ∧
    (∀ (first : JVal) (rest : List JVal),
      (∀ kvs, first ≠ .jobj kvs) → (∀ s, first ≠ .jstr s) →
      import_achievements_run env appid (.jarr (first :: rest)) =
        (errResult "Invalid achievement list format", [])) := by
  refine ⟨?_, ?_, ?_⟩
  · simp [import_achievements_run, import_achievements]
  · intro v hv
    cases v with
    | jarr elems =>
      cases elems with
      | nil => exact absurd rfl (hv [])
      | cons a l => exact absurd rfl (hv (a :: l))
    | jnull => simp [import_achievements_run, import_achievements]
    | jbool b => simp [import_achievements_run, import_achievements]
    | jint n => simp [import_achievements_run, import_achievements]
    | jstr s => simp [import_achievements_run, import_achievements]
    | jobj kvs => simp [import_achievements_run, import_achievements]
  · intro first rest hobj hstr
    cases first with
    | jobj kvs => exact absurd rfl (hobj kvs)
    | jstr s => exact absurd rfl (hstr s)
    | jnull => simp [import_achievements_run, import_achievements]
    | jbool b => simp [import_achievements_run, import_achievements]
    | jint n => simp [import_achievements_run, import_achievements]
    | jarr l => simp [import_achievements_run, import_achievements]

/-- Witness for C7: empty array and an integer first element, concretely. -/
theorem c7_import_input_validation_witness :
    import_achievements_run noToolEnv 42 (.jarr []) =
        (errResult "Achievements list is empty", []) ∧
    import_achievements_run noToolEnv 42 (.jarr [.jint 7]) =
        (errResult "Invalid achievement list format", []) :=
  ⟨(c7_import_input_validation noToolEnv 42).1,
   (c7_import_input_validation noToolEnv 42).2.2 (.jint 7) []
     (fun _kvs h => JVal.noConfusion h) (fun _s h => JVal.noConfusion h)⟩

/-- C9: the version reader prints the `version` field of a parsed manifest
(the `.get` default makes an absent field print `unknown`), and any read or
parse failure prints `unknown` with exit code 1. -/
theorem c9_get_version (env : VersionEnv) (content : List Char) (data : JVal)
    (s errMsg : String) :
    (env.readPluginJson = .ok content → jsonLoads content = some data →
      pyGet data "version" (.jstr "unknown") = .ok (.jstr s) →
      get_version_main env = (s, 0)) ∧
    (env.readPluginJson = .error errMsg → get_version_main env = ("unknown", 1)) ∧
    (env.readPluginJson = .ok content → jsonLoads content = none →
      get_version_main env = ("unknown", 1)) := by
  refine ⟨?_, ?_, ?_⟩
  · intro hread hparse hget
    simp [get_version_main, hread, hparse, hget, pyStr, Bind.bind, Except.bind,
      Functor.map, Except.map, Pure.pure, Except.pure]
  · intro hread
    simp [get_version_main, hread, Bind.bind, Except.bind]
  · intro hread hparse
    simp [get_version_main, hread, hparse, Bind.bind, Except.bind]

/-- Witness for C9: the manifest `{"version":"1.2.3"}` prints `1.2.3` with
exit code 0; a missing file prints `unknown` with exit code 1. -/
theorem c9_get_version_witness :
    get_version_main versionOkEnv = ("1.2.3", 0) ∧
    get_version_main versionMissingEnv = ("unknown", 1) :=
  ⟨(c9_get_version versionOkEnv "\x7b\"version\":\"1.2.3\"\x7d".data
      (.jobj [("version", .jstr "1.2.3")]) "1.2.3" "e").1 rfl rfl rfl,
   (c9_get_version versionMissingEnv [] .jnull "x" "FileNotFoundError").2.1 rfl⟩

/-- C8: a file enumerated under an allow-listed directory is included in the
archive iff its normalized root-relative path contains no deny substring;
concretely, of `backend/x.pyc` and `backend/x.py` only `backend/x.py` is
archived. -/
theorem c8_build_zip_exclusion (fs : BuildFS) (item fp : String)
    (hex : fs.pathExists item = true) (hdir : fs.isDir item = true)
    (hmem : fp ∈ fs.filesUnder item) :
    (normalizeSep fp ∈ includeEntryFiles fs item ↔
      should_exclude (normalizeSep fp) exclude_patterns = false) ∧
    buildZipEntries pycExampleFS = ["backend/x.py"] := by
  constructor
  · simp only [includeEntryFiles, hex, hdir, Bool.true_eq_false, if_false, if_true, ite_true,
      ite_false]
    rw [List.mem_filterMap]
    constructor
    · rintro ⟨a, ha, hga⟩
      by_cases hexcl : should_exclude (normalizeSep a) exclude_patterns = true
      · simp [hexcl] at hga
      · simp only [Bool.not_eq_true] at hexcl
        simp [hexcl] at hga
        rw [← hga]
        exact hexcl
    · intro hfalse
      exact ⟨fp, hmem, by simp [hfalse]⟩
  · rfl

/-- Witness for C8 at the concrete example root. -/
theorem c8_build_zip_exclusion_witness :
    (normalizeSep "backend/x.py" ∈ includeEntryFiles pycExampleFS "backend" ↔
      should_exclude (normalizeSep "backend/x.py") exclude_patterns = false) ∧
    buildZipEntries pycExampleFS = ["backend/x.py"] :=
  c8_build_zip_exclusion pycExampleFS "backend" "backend/x.py" (by decide) (by decide)
    (by decide)

/-! ### The import loop, characterised -/

lemma importStep_eq (unlock : UnlockFn) (appid : Int) (achId : String) :
    importStep unlock appid achId =
      match unlockFailureMsg unlock appid achId with
      | none => (1, 0, ([] : List String))
      | some m => (0, 1, [m]) := by
  unfold importStep unlockFailureMsg
  cases hu : unlock appid achId with
  | error exc => simp [Bind.bind, Except.bind]
  | ok result =>
    cases hg : pyGet result "success" .jnull with
    | error exc => simp [Bind.bind, Except.bind, hg]
    | ok s =>
      by_cases hs : s.pyTruthy = true
      · simp [Bind.bind, Except.bind, hg, hs, Pure.pure, Except.pure]
      · rw [Bool.not_eq_true] at hs
        cases hge : pyGet result "error" (.jstr "Unknown error") with
        | ok e => simp [Bind.bind, Except.bind, hg, hs, hge, Pure.pure, Except.pure]
        | error exc => simp [Bind.bind, Except.bind, hg, hs, hge, Pure.pure, Except.pure]

lemma unlockFailureMsg_none_iff (unlock : UnlockFn) (appid : Int) (achId : String) :
    unlockFailureMsg unlock appid achId = none ↔
      unlockSucceeds unlock appid achId = true := by
  unfold unlockFailureMsg unlockSucceeds
  cases hu : unlock appid achId with
  | error exc => simp
  | ok result =>
    cases hg : pyGet result "success" .jnull with
    | error exc => simp [hg]
    | ok s =>
      by_cases hs : s.pyTruthy = true
      · simp [hg, hs]
      · rw [Bool.not_eq_true] at hs
        cases hge : pyGet result "error" (.jstr "Unknown error") with
        | ok e => simp [hg, hs, hge]
        | error exc => simp [hg, hs, hge]

/-- The loop accumulates, in input order: the success count, the failure
count and the failure-detail lines. -/
lemma importLoop_spec (unlock : UnlockFn) (appid : Int) (ids : List String) :
    importLoop unlock appid ids =
      (ids.countP (unlockSucceeds unlock appid),
       ids.countP (fun i => ! unlockSucceeds unlock appid i),
       ids.filterMap (unlockFailureMsg unlock appid)) := by
  induction ids with
  | nil => simp [importLoop]
  | cons a l ih =>
    simp only [importLoop, ih, importStep_eq, List.countP_cons, List.filterMap_cons]
    rcases hm : unlockFailureMsg unlock appid a with _ | m
    · have hs : unlockSucceeds unlock appid a = true :=
        (unlockFailureMsg_none_iff _ _ _).1 hm
      simp [hs]
      omega
    · have hs : unlockSucceeds unlock appid a = false := by
        rw [← Bool.not_eq_true]
        intro hst
        have := (unlockFailureMsg_none_iff unlock appid a).2 hst
        rw [hm] at this
        cases this
      simp [hs]
      omega

lemma importFromIds_snd (unlock : UnlockFn) (appid : Int) (ids : List String) :
    (importFromIds unlock appid ids).2 = ids := by
  cases ids <;> simp [importFromIds]

lemma importFromIds_eq (unlock : UnlockFn) (appid : Int) (ids : List String)
    (h : ids ≠ []) :
    importFromIds unlock appid ids = (.jobj (importResponseKvs unlock appid ids), ids) := by
  have hne : ids.isEmpty = false := by
    cases ids with
    | nil => exact absurd rfl h
    | cons a l => rfl
  simp only [importFromIds, hne, importLoop_spec, importResponseKvs]
  by_cases hd : (List.filterMap (unlockFailureMsg unlock appid) ids).isEmpty = true <;>
    simp [hd]

lemma stripIds_map_jstr (ids : List String)
    (h : ∀ s ∈ ids, pyStripStr s = s ∧ s ≠ "") :
    stripIds (ids.map .jstr) = .ok ids := by
  induction ids with
  | nil => simp [stripIds]
  | cons a l ih =>
    obtain ⟨ha1, ha2⟩ := h a (List.mem_cons_self a l)
    have ihl := ih (fun s hs => h s (List.mem_cons_of_mem _ hs))
    simp [stripIds, pyStripAttr, Bind.bind, Except.bind, ha1, ihl, ha2]

lemma import_of_string_list (unlock : UnlockFn) (appid : Int) (ids : List String)
    (h1 : ids ≠ []) (h2 : ∀ s ∈ ids, pyStripStr s = s ∧ s ≠ "") :
    import_achievements unlock appid (.jarr (ids.map .jstr)) =
      (.jobj (importResponseKvs unlock appid ids), ids) := by
  cases ids with
  | nil => exact absurd rfl h1
  | cons a l =>
    have hs := stripIds_map_jstr (a :: l) h2
    rw [List.map_cons] at hs
    simp only [List.map_cons, import_achievements, hs]
    exact importFromIds_eq unlock appid (a :: l) h1

/-- C6: the importer calls unlock once per identifier in input order (the
call trace is the identifier list); successes and failures are counted
per item, failures appending their `"<id>: <error>"` line; the response is
exactly the dictionary built from those counts. -/
theorem c6_import_sequential_counts (unlock : UnlockFn) (appid : Int)
    (ids : List String) (h1 : ids ≠ [])
    (h2 : ∀ s ∈ ids, pyStripStr s = s ∧ s ≠ "") :
    import_achievements unlock appid (.jarr (ids.map .jstr)) =
      (.jobj (importResponseKvs unlock appid ids), ids) :=
  import_of_string_list unlock appid ids h1 h2

/-- Witness for C6: `["ach1","ach2"]` with both unlocks succeeding yields
`success=true, imported=2, failed=0, total_attempted=2`. -/
theorem c6_import_sequential_counts_witness :
    import_achievements alwaysSuccessUnlock 480 (.jarr (["ach1", "ach2"].map JVal.jstr)) =
      (.jobj [("success", .jbool true), ("imported", .jint 2), ("failed", .jint 0),
        ("total_attempted", .jint 2), ("message", .jstr "Imported 2 achievement(s)")],
       ["ach1", "ach2"]) :=
  (c6_import_sequential_counts alwaysSuccessUnlock 480 ["ach1", "ach2"] (by decide)
    (by decide)).trans (by rfl)

lemma filterMap_forall_some {α β : Type} (l : List α) (f : α → Option β) (g : α → β)
    (h : ∀ a ∈ l, f a = some (g a)) : l.filterMap f = l.map g := by
  induction l with
  | nil => rfl
  | cons a t ih =>
    simp [List.filterMap_cons, h a (by simp), ih (fun x hx => h x (by simp [hx]))]

/-- C4: if every unlock call raises, the import reports `imported=0`,
`failed=N`, `success=false`, every item is still processed, and
`failed_details` holds at most the first 10 failure lines. -/
theorem c4_import_all_exceptions (unlock : UnlockFn) (appid : Int)
    (ids : List String) (exc : String → String) (h1 : ids ≠ [])
    (h2 : ∀ s ∈ ids, pyStripStr s = s ∧ s ≠ "")
    (h3 : ∀ s ∈ ids, unlock appid s = .error (exc s)) :
    objGet? (import_achievements unlock appid (.jarr (ids.map .jstr))).1 "imported" =
        some (.jint 0) ∧
    objGet? (import_achievements unlock appid (.jarr (ids.map .jstr))).1 "failed" =
        some (.jint (ids.length : Int)) ∧
    objGet? (import_achievements unlock appid (.jarr (ids.map .jstr))).1 "success" =
        some (.jbool false) ∧
    objGet? (import_achievements unlock appid (.jarr (ids.map .jstr))).1 "failed_details" =
        some (.jarr (((ids.map (fun s => s ++ ": Exception - " ++ exc s)).take 10).map
          JVal.jstr)) ∧
    ((ids.map (fun s => s ++ ": Exception - " ++ exc s)).take 10).length ≤ 10 ∧
    (import_achievements unlock appid (.jarr (ids.map .jstr))).2 = ids := by
  have hfail : ∀ s ∈ ids, unlockSucceeds unlock appid s = false := by
    intro s hs
    unfold unlockSucceeds
    rw [h3 s hs]
  have hmsg : ∀ s ∈ ids, unlockFailureMsg unlock appid s =
      some (s ++ ": Exception - " ++ exc s) := by
    intro s hs
    unfold unlockFailureMsg
    rw [h3 s hs]
  have hS : ids.countP (unlockSucceeds unlock appid) = 0 := by
    rw [List.countP_eq_zero]
    intro a ha
    simp [hfail a ha]
  have hF : ids.countP (fun i => ! unlockSucceeds unlock appid i) = ids.length := by
    rw [List.countP_eq_length]
    intro a ha
    simp [hfail a ha]
  have hD : ids.filterMap (unlockFailureMsg unlock appid) =
      ids.map (fun s => s ++ ": Exception - " ++ exc s) :=
    filterMap_forall_some ids _ _ hmsg
  have hDne : (ids.map (fun s => s ++ ": Exception - " ++ exc s)).isEmpty = false := by
    cases ids with
    | nil => exact absurd rfl h1
    | cons a l => rfl
  have him := import_of_string_list unlock appid ids h1 h2
  rw [him]
  have hlen : 0 < ids.length := List.length_pos.2 h1
  simp only [importResponseKvs, hS, hF, hD, hDne]
  refine ⟨?_, ?_, ?_, ?_, List.length_take_le _ _, ?_⟩ <;>
    simp [objGet?, dictHasKey, dictGet, hlen]

/-- Witness for C4 with N = 12 raising calls. -/
theorem c4_import_all_exceptions_witness :
    objGet? (import_achievements alwaysRaiseUnlock 1 (.jarr (idTwelve.map .jstr))).1
        "imported" = some (.jint 0) ∧
    objGet? (import_achievements alwaysRaiseUnlock 1 (.jarr (idTwelve.map .jstr))).1
        "failed" = some (.jint (idTwelve.length : Int)) ∧
    objGet? (import_achievements alwaysRaiseUnlock 1 (.jarr (idTwelve.map .jstr))).1
        "success" = some (.jbool false) ∧
    objGet? (import_achievements alwaysRaiseUnlock 1 (.jarr (idTwelve.map .jstr))).1
        "failed_details" =
      some (.jarr (((idTwelve.map (fun s => s ++ ": Exception - " ++ "boom")).take 10).map
        JVal.jstr)) ∧
    ((idTwelve.map (fun s => s ++ ": Exception - " ++ "boom")).take 10).length ≤ 10 ∧
    (import_achievements alwaysRaiseUnlock 1 (.jarr (idTwelve.map .jstr))).2 = idTwelve :=
  c4_import_all_exceptions alwaysRaiseUnlock 1 idTwelve (fun _ => "boom") (by decide)
    (by decide) (fun _ _ => rfl)

lemma filterUnlocked_ok (elems : List JVal) (h : ∀ v ∈ elems, v.isObj = true) :
    filterUnlocked elems =
      .ok (elems.filter (fun v => (objGetD v "unlocked" (.jbool false)).pyTruthy)) := by
  induction elems with
  | nil => rfl
  | cons a l ih =>
    have ha := h a (by simp)
    have ihl := ih (fun v hv => h v (by simp [hv]))
    cases a with
    | jobj kvs =>
      by_cases ht : (dictGet kvs "unlocked" (.jbool false)).pyTruthy = true <;>
        simp [filterUnlocked, pyGet, Bind.bind, Except.bind, ihl, objGetD,
          List.filter_cons, ht]
    | jnull => simp [JVal.isObj] at ha
    | jbool b => simp [JVal.isObj] at ha
    | jint n => simp [JVal.isObj] at ha
    | jstr s => simp [JVal.isObj] at ha
    | jarr xs => simp [JVal.isObj] at ha

lemma extractIds_ok (l : List JVal)
    (h : ∀ v ∈ l, v.isObj = true ∧ ∃ s, objGetD v "id" (.jstr "") = .jstr s) :
    extractIds l = .ok (l.filterMap legacyIdOf) := by
  induction l with
  | nil => rfl
  | cons a t ih =>
    obtain ⟨ha, s, hs⟩ := h a (by simp)
    have iht := ih (fun v hv => h v (by simp [hv]))
    cases a with
    | jobj kvs =>
      simp only [objGetD] at hs
      by_cases he : pyStripStr s = "" <;>
        simp [extractIds, pyGet, hs, pyStripAttr, Bind.bind, Except.bind, iht,
          legacyIdOf, objGetD, List.filterMap_cons, he, pyStr]
    | jnull => simp [JVal.isObj] at ha
    | jbool b => simp [JVal.isObj] at ha
    | jint n => simp [JVal.isObj] at ha
    | jstr s2 => simp [JVal.isObj] at ha
    | jarr xs => simp [JVal.isObj] at ha

/-- C5: a list opening with a record is treated as the legacy format: the
ids attempted are exactly the trimmed non-empty `id` fields of the elements
whose `unlocked` field is truthy. -/
theorem c5_import_legacy_filter (unlock : UnlockFn) (appid : Int) (elems : List JVal)
    (h1 : ∃ kvs rest, elems = .jobj kvs :: rest)
    (h2 : ∀ v ∈ elems, v.isObj = true ∧ ∃ s, objGetD v "id" (.jstr "") = .jstr s) :
    (import_achievements unlock appid (.jarr elems)).2 = legacySpecIds elems := by
  obtain ⟨kvs, rest, rfl⟩ := h1
  have hobj : ∀ v ∈ (JVal.jobj kvs :: rest), v.isObj = true := fun v hv => (h2 v hv).1
  have hfu := filterUnlocked_ok _ hobj
  have hex := extractIds_ok
    ((JVal.jobj kvs :: rest).filter
      (fun v => (objGetD v "unlocked" (.jbool false)).pyTruthy))
    (fun v hv => h2 v (List.mem_of_mem_filter hv))
  simp only [import_achievements, legacyExtract, Bind.bind, Except.bind, hfu, hex,
    importFromIds_snd, legacySpecIds]

/-- Witness for C5: only `"a"` is attempted. -/
theorem c5_import_legacy_filter_witness :
    (import_achievements alwaysSuccessUnlock 7 (.jarr c5Elems)).2 = ["a"] := by
  have h := c5_import_legacy_filter alwaysSuccessUnlock 7 c5Elems
    ⟨[("id", .jstr "a"), ("unlocked", .jbool true)],
     [.jobj [("id", .jstr "b"), ("unlocked", .jbool false)]], rfl⟩
    (by
      intro v hv
      simp only [c5Elems, List.mem_cons, List.not_mem_nil, or_false] at hv
      rcases hv with rfl | rfl
      · exact ⟨rfl, "a", rfl⟩
      · exact ⟨rfl, "b", rfl⟩)
  exact h.trans (by rfl)

/-- C10: whenever an import reaches the per-item loop (non-empty attempted
id list), the response satisfies `imported + failed = total_attempted`, and
`failed_details` is present iff at least one item failed. -/
theorem c10_import_counters_invariant (unlock : UnlockFn) (appid : Int)
    (lst res : JVal) (ids : List String)
    (himp : import_achievements unlock appid lst = (res, ids)) (hne : ids ≠ []) :
    ∃ s f : Nat,
      objGet? res "imported" = some (.jint (s : Int)) ∧
      objGet? res "failed" = some (.jint (f : Int)) ∧
      objGet? res "total_attempted" = some (.jint (ids.length : Int)) ∧
      s + f = ids.length ∧
      ((objGet? res "failed_details").isSome ↔ 0 < f) := by
  have key : ∀ ids0 : List String, importFromIds unlock appid ids0 = (res, ids) →
      ∃ s f : Nat,
        objGet? res "imported" = some (.jint (s : Int)) ∧
        objGet? res "failed" = some (.jint (f : Int)) ∧
        objGet? res "total_attempted" = some (.jint (ids.length : Int)) ∧
        s + f = ids.length ∧
        ((objGet? res "failed_details").isSome ↔ 0 < f) := by
    intro ids0 h0
    have hids0 : ids0 ≠ [] := by
      intro hnil
      rw [hnil] at h0
      have : ids = [] := by
        have := congrArg Prod.snd h0
        simpa [importFromIds] using this.symm
      exact hne this
    rw [importFromIds_eq unlock appid ids0 hids0] at h0
    have hres : JVal.jobj (importResponseKvs unlock appid ids0) = res :=
      congrArg Prod.fst h0
    have hids : ids0 = ids := congrArg Prod.snd h0
    subst hids
    have hcount := List.length_eq_countP_add_countP
      (p := unlockSucceeds unlock appid) (l := ids0)
    have hcount' : ids0.countP (fun i => ! unlockSucceeds unlock appid i) =
        ids0.countP (fun a => ¬ unlockSucceeds unlock appid a = true) := by
      apply List.countP_congr
      intro a _
      simp
    have hiff : ids0.filterMap (unlockFailureMsg unlock appid) = [] ↔
        ids0.countP (fun i => ! unlockSucceeds unlock appid i) = 0 := by
      rw [List.filterMap_eq_nil_iff, List.countP_eq_zero]
      constructor
      · intro h a ha
        have := (unlockFailureMsg_none_iff unlock appid a).1 (h a ha)
        simp [this]
      · intro h a ha
        have := h a ha
        simp only [Bool.not_eq_true', Bool.not_eq_false] at this
        exact (unlockFailureMsg_none_iff unlock appid a).2 this
    refine ⟨ids0.countP (unlockSucceeds unlock appid),
      ids0.countP (fun i => ! unlockSucceeds unlock appid i), ?_, ?_, ?_, ?_, ?_⟩
    all_goals try rw [← hres]
    · rcases hdl : ids0.filterMap (unlockFailureMsg unlock appid) with _ | ⟨m, ms⟩ <;>
        simp [importResponseKvs, hdl, objGet?, dictHasKey, dictGet]
    · rcases hdl : ids0.filterMap (unlockFailureMsg unlock appid) with _ | ⟨m, ms⟩ <;>
        simp [importResponseKvs, hdl, objGet?, dictHasKey, dictGet]
    · rcases hdl : ids0.filterMap (unlockFailureMsg unlock appid) with _ | ⟨m, ms⟩ <;>
        simp [importResponseKvs, hdl, objGet?, dictHasKey, dictGet]
    · omega
    · rcases hdl : ids0.filterMap (unlockFailureMsg unlock appid) with _ | ⟨m, ms⟩
      · have hf0 : ids0.countP (fun i => ! unlockSucceeds unlock appid i) = 0 :=
          hiff.1 hdl
        simp [importResponseKvs, hdl, objGet?, dictHasKey, dictGet, hf0]
      · have hfpos : ids0.countP (fun i => ! unlockSucceeds unlock appid i) ≠ 0 := by
          intro h0'
          rw [hiff.2 h0'] at hdl
          exact List.noConfusion hdl
        have hfpos' : 0 < ids0.countP (fun i => ! unlockSucceeds unlock appid i) :=
          Nat.pos_of_ne_zero hfpos
        simp [importResponseKvs, hdl, objGet?, dictHasKey, dictGet, hfpos']
  cases lst with
  | jarr elems =>
    cases elems with
    | nil =>
      exfalso
      apply hne
      have := congrArg Prod.snd himp
      simpa [import_achievements] using this.symm
    | cons first rest =>
      cases first with
      | jobj kvs =>
        rcases hle : legacyExtract (JVal.jobj kvs :: rest) with exc | ids0
        · exfalso
          apply hne
          have := congrArg Prod.snd himp
          simp only [import_achievements, hle] at this
          exact this.symm
        · apply key ids0
          rw [← himp]
          simp only [import_achievements, hle]
      | jstr s =>
        rcases hle : stripIds (JVal.jstr s :: rest) with exc | ids0
        · exfalso
          apply hne
          have := congrArg Prod.snd himp
          simp only [import_achievements, hle] at this
          exact this.symm
        · apply key ids0
          rw [← himp]
          simp only [import_achievements, hle]
      | jnull =>
        exfalso; apply hne
        have := congrArg Prod.snd himp
        simpa [import_achievements] using this.symm
      | jbool b =>
        exfalso; apply hne
        have := congrArg Prod.snd himp
        simpa [import_achievements] using this.symm
      | jint n =>
        exfalso; apply hne
        have := congrArg Prod.snd himp
        simpa [import_achievements] using this.symm
      | jarr xs =>
        exfalso; apply hne
        have := congrArg Prod.snd himp
        simpa [import_achievements] using this.symm
  | jnull =>
    exfalso; apply hne
    have := congrArg Prod.snd himp
    simpa [import_achievements] using this.symm
  | jbool b =>
    exfalso; apply hne
    have := congrArg Prod.snd himp
    simpa [import_achievements] using this.symm
  | jint n =>
    exfalso; apply hne
    have := congrArg Prod.snd himp
    simpa [import_achievements] using this.symm
  | jstr s =>
    exfalso; apply hne
    have := congrArg Prod.snd himp
    simpa [import_achievements] using this.symm
  | jobj kvs =>
    exfalso; apply hne
    have := congrArg Prod.snd himp
    simpa [import_achievements] using this.symm

/-- Witness for C10 at a mixed success/failure run. -/
theorem c10_import_counters_invariant_witness :
    ∃ s f : Nat,
      objGet? c10Res "imported" = some (.jint (s : Int)) ∧
      objGet? c10Res "failed" = some (.jint (f : Int)) ∧
      objGet? c10Res "total_attempted" =
        some (.jint ((["g", "b"] : List String).length : Int)) ∧
      s + f = (["g", "b"] : List String).length ∧
      ((objGet? c10Res "failed_details").isSome ↔ 0 < f) :=
  c10_import_counters_invariant mixedUnlock 3 (.jarr [.jstr "g", .jstr "b"]) c10Res
    ["g", "b"] (by rfl) (by decide)

/-! ### Results are always dictionaries -/

lemma pyFind_getElem? (t : Char) : ∀ (l : List Char) (i : Nat),
    pyFind l t = some i → l[i]? = some t := by
  intro l
  induction l with
  | nil => intro i h; cases h
  | cons c rest ih =>
    intro i h
    by_cases hc : c = t
    · subst hc
      simp only [pyFind, eq_self_iff_true, if_true, Option.some.injEq] at h
      subst h
      simp
    · simp only [pyFind, hc, if_false, ite_false, Option.map_eq_some'] at h
      obtain ⟨j, hj, rfl⟩ := h
      simpa using ih j hj

lemma skipWs_cons_of_not_ws (c : Char) (l : List Char) (h : jsonWs c = false) :
    skipWs (c :: l) = c :: l := by
  simp [skipWs, List.dropWhile_cons, h]

lemma parseObjBody_isObj (fuel : Nat) (l : List Char) (v : JVal) (r : List Char)
    (h : parseObjBody fuel l = some (v, r)) : v.isObj = true := by
  cases fuel with
  | zero => cases h
  | succ f =>
    simp only [parseObjBody] at h
    split at h
    · simp only [Option.some.injEq, Prod.mk.injEq] at h
      rw [← h.1]
      rfl
    · rw [Option.map_eq_some'] at h
      obtain ⟨p, _, heq⟩ := h
      simp only [Prod.mk.injEq] at heq
      rw [← heq.1]
      rfl

lemma parseValue_brace_isObj (fuel : Nat) (t : List Char) (v : JVal) (r : List Char)
    (h : parseValue fuel ('{' :: t) = some (v, r)) : v.isObj = true := by
  cases fuel with
  | zero => cases h
  | succ f =>
    simp only [parseValue, skipWs_cons_of_not_ws '{' t (by decide), if_pos rfl] at h
    exact parseObjBody_isObj f t v r h

lemma jsonLoads_brace_isObj (l : List Char) (v : JVal)
    (h : jsonLoads l = some v) (hh : l.head? = some '{') : v.isObj = true := by
  obtain ⟨t, rfl⟩ : ∃ t, l = '{' :: t := by
    cases l with
    | nil => cases hh
    | cons a t =>
      simp only [List.head?_cons, Option.some.injEq] at hh
      exact ⟨t, by rw [hh]⟩
  unfold jsonLoads at h
  rcases hp : parseValue (3 * ('{' :: t).length + 3) ('{' :: t) with _ | ⟨v', r⟩
  · rw [hp] at h; cases h
  · rw [hp] at h
    dsimp only at h
    by_cases hr : (skipWs r).isEmpty = true
    · rw [if_pos hr] at h
      injection h with h1
      rw [← h1]
      exact parseValue_brace_isObj _ t v' r hp
    · rw [if_neg hr] at h; cases h

lemma pySlice_head_of_find (l : List Char) (i j : Nat) (hi : pyFind l '{' = some i)
    (hne : pySlice l i (j + 1) ≠ []) : (pySlice l i (j + 1)).head? = some '{' := by
  have hij : i < j + 1 := by
    by_contra hij
    push_neg at hij
    exact hne (List.drop_eq_nil_of_le (le_trans (List.length_take_le _ _) hij))
  unfold pySlice
  rw [List.head?_drop, List.getElem?_take_of_lt hij]
  exact pyFind_getElem? '{' l i hi

lemma runSamCli_isObj (env : SamEnv) (command : String) (appid : Int)
    (args : List String) : ((runSamCli env command appid args).1).isObj = true := by
  unfold runSamCli
  cases hpe : env.pathExists (samCliPath env) with
  | false => simp [errResult, JVal.isObj]
  | true =>
    cases hs : env.spawn (mkCmdArgs env command appid args) with
    | error e => simp [hs, errResult, JVal.isObj]
    | ok stdout =>
      by_cases hso : stdout.isEmpty = true
      · simp [hs, hso, errResult, JVal.isObj]
      · rcases hf : pyFind (pyStripList stdout) '{' with _ | i <;>
          rcases hr : pyRfind (pyStripList stdout) '}' with _ | j
        · simp [hs, hso, hf, hr, errResult, JVal.isObj]
        · simp [hs, hso, hf, hr, errResult, JVal.isObj]
        · simp [hs, hso, hf, hr, errResult, JVal.isObj]
        · rcases hj : jsonLoads (pySlice (pyStripList stdout) i (j + 1)) with _ | v
          · simp [hs, hso, hf, hr, hj, errResult, JVal.isObj]
          · have hne : pySlice (pyStripList stdout) i (j + 1) ≠ [] := by
              intro h0
              rw [h0] at hj
              cases hj
            have hobj := jsonLoads_brace_isObj _ v hj
              (pySlice_head_of_find _ i j hf hne)
            simp [hs, hso, hf, hr, hj, hobj]

lemma importFromIds_isObj (unlock : UnlockFn) (appid : Int) (ids : List String) :
    ((importFromIds unlock appid ids).1).isObj = true := by
  cases ids with
  | nil => simp [importFromIds, errResult, JVal.isObj]
  | cons a l =>
    rw [importFromIds_eq unlock appid (a :: l) (by simp)]
    rfl

lemma import_achievements_isObj (unlock : UnlockFn) (appid : Int) (lst : JVal) :
    ((import_achievements unlock appid lst).1).isObj = true := by
  cases lst with
  | jarr elems =>
    cases elems with
    | nil => simp [import_achievements, errResult, JVal.isObj]
    | cons first rest =>
      cases first with
      | jobj kvs =>
        rcases hle : legacyExtract (JVal.jobj kvs :: rest) with exc | ids
        · simp [import_achievements, hle, errResult, JVal.isObj]
        · simp only [import_achievements, hle]
          exact importFromIds_isObj unlock appid ids
      | jstr s =>
        rcases hle : stripIds (JVal.jstr s :: rest) with exc | ids
        · simp [import_achievements, hle, errResult, JVal.isObj]
        · simp only [import_achievements, hle]
          exact importFromIds_isObj unlock appid ids
      | jnull => simp [import_achievements, errResult, JVal.isObj]
      | jbool b => simp [import_achievements, errResult, JVal.isObj]
      | jint n => simp [import_achievements, errResult, JVal.isObj]
      | jarr xs => simp [import_achievements, errResult, JVal.isObj]
  | jnull => simp [import_achievements, errResult, JVal.isObj]
  | jbool b => simp [import_achievements, errResult, JVal.isObj]
  | jint n => simp [import_achievements, errResult, JVal.isObj]
  | jstr s => simp [import_achievements, errResult, JVal.isObj]
  | jobj kvs => simp [import_achievements, errResult, JVal.isObj]

/-- C2: public operations always return a dictionary and convert exceptions
into `{"success": False, "error": str(e)}`: a raising spawn/communicate is
caught by `_run_sam_cli`, and a raising extraction stage is caught by
`import_achievements`. -/
theorem c2_no_exception_escapes (env : SamEnv) (unlock : UnlockFn) (command : String)
    (appid : Int) (args : List String) (m : String) (lst : JVal) (exc : String)
    (kvs : List (String × JVal)) (s : String) (rest : List JVal) :
    (env.pathExists (samCliPath env) = true →
      env.spawn (mkCmdArgs env command appid args) = .error m →
      runSamCli env command appid args =
        (errResult m, [mkCmdArgs env command appid args])) ∧
    ((runSamCli env command appid args).1).isObj = true ∧
    (legacyExtract (.jobj kvs :: rest) = .error exc →
      import_achievements unlock appid (.jarr (.jobj kvs :: rest)) =
        (errResult exc, [])) ∧
    (stripIds (.jstr s :: rest) = .error exc →
      import_achievements unlock appid (.jarr (.jstr s :: rest)) =
        (errResult exc, [])) ∧
    ((import_achievements unlock appid lst).1).isObj = true := by
  refine ⟨?_, runSamCli_isObj env command appid args, ?_, ?_,
    import_achievements_isObj unlock appid lst⟩
  · intro h1 h2
    simp [runSamCli, h1, h2]
  · intro hle
    simp [import_achievements, hle]
  · intro hle
    simp [import_achievements, hle]

/-- Witness for C2: a raising spawn is converted into a structured error. -/
theorem c2_no_exception_escapes_witness :
    runSamCli spawnFailEnv "unlock" 440 ["ACH_WIN"] =
      (errResult "spawn failed", [mkCmdArgs spawnFailEnv "unlock" 440 ["ACH_WIN"]]) :=
  (c2_no_exception_escapes spawnFailEnv alwaysSuccessUnlock "unlock" 440 ["ACH_WIN"]
    "spawn failed" (.jarr []) "e" [] "s" []).1 rfl rfl

/-! ### C1: exactness of the brace-delimited JSON extraction -/

lemma dropWhile_append_cons (p : Char → Bool) (a : List Char) (c : Char)
    (b : List Char) (h : p c = false) :
    (a ++ c :: b).dropWhile p = a.dropWhile p ++ c :: b := by
  induction a with
  | nil => simp [List.dropWhile_cons, h]
  | cons x a' ih =>
    by_cases hx : p x = true <;> simp [List.dropWhile_cons, hx, ih]

lemma not_mem_pyStripList (c : Char) (l : List Char) (h : c ∉ l) :
    c ∉ pyStripList l := by
  intro hc
  apply h
  unfold pyStripList at hc
  rw [List.mem_reverse] at hc
  have hc2 := (List.dropWhile_sublist pyIsSpace).subset hc
  rw [List.mem_reverse] at hc2
  exact (List.dropWhile_sublist pyIsSpace).subset hc2

lemma pyFind_eq_none (l : List Char) (t : Char) (h : t ∉ l) : pyFind l t = none := by
  induction l with
  | nil => rfl
  | cons c rest ih =>
    have hc : ¬ (c = t) := fun hct => h (by simp [hct])
    have h' : t ∉ rest := fun ht => h (by simp [ht])
    simp [pyFind, hc, ih h']

lemma pyFind_append_not_mem (a b : List Char) (t : Char) (h : t ∉ a) :
    pyFind (a ++ b) t = (pyFind b t).map (· + a.length) := by
  induction a with
  | nil => cases hfb : pyFind b t <;> simp [hfb]
  | cons x a' ih =>
    have hx : ¬ (x = t) := fun hxx => h (by simp [hxx])
    have h' : t ∉ a' := fun ht => h (by simp [ht])
    have hstep : pyFind ((x :: a') ++ b) t = (pyFind (a' ++ b) t).map (· + 1) := by
      simp [pyFind, hx]
    rw [hstep, ih h']
    cases hfb : pyFind b t <;> simp [hfb, Nat.add_assoc]

lemma pyStripList_decomp (pre t post d : List Char)
    (hd : ('{' :: t : List Char) = d ++ ['}']) :
    pyStripList (pre ++ ('{' :: t) ++ post) =
      pre.dropWhile pyIsSpace ++ ('{' :: t) ++
        (post.reverse.dropWhile pyIsSpace).reverse := by
  unfold pyStripList
  have h1 : pre ++ ('{' :: t) ++ post = pre ++ '{' :: (t ++ post) := by simp
  rw [h1, dropWhile_append_cons pyIsSpace pre '{' (t ++ post) (by decide)]
  have h2 : pre.dropWhile pyIsSpace ++ '{' :: (t ++ post) =
      (pre.dropWhile pyIsSpace ++ ('{' :: t)) ++ post := by simp
  rw [h2, List.reverse_append]
  rw [show (pre.dropWhile pyIsSpace ++ ('{' :: t)).reverse =
    '}' :: (d.reverse ++ (pre.dropWhile pyIsSpace).reverse) from by
      rw [hd, List.reverse_append, List.reverse_append]; rfl]
  rw [dropWhile_append_cons pyIsSpace post.reverse '}'
    (d.reverse ++ (pre.dropWhile pyIsSpace).reverse) (by decide)]
  simp [hd]

lemma extraction_exact (pre t post : List Char) (hpre : '{' ∉ pre)
    (hpost : '}' ∉ post) (hl : ('{' :: t : List Char).getLast? = some '}') :
    pyFind (pyStripList (pre ++ ('{' :: t) ++ post)) '{' =
        some (pre.dropWhile pyIsSpace).length ∧
    pyRfind (pyStripList (pre ++ ('{' :: t) ++ post)) '}' =
        some ((pre.dropWhile pyIsSpace).length + ('{' :: t).length - 1) ∧
    pySlice (pyStripList (pre ++ ('{' :: t) ++ post))
        (pre.dropWhile pyIsSpace).length
        ((pre.dropWhile pyIsSpace).length + ('{' :: t).length - 1 + 1) =
      '{' :: t := by
  obtain ⟨d, hd⟩ : ∃ d, ('{' :: t : List Char) = d ++ ['}'] := by
    refine ⟨('{' :: t).dropLast, ?_⟩
    have hne : ('{' :: t : List Char) ≠ [] := by simp
    have := List.dropLast_append_getLast hne
    rw [List.getLast?_eq_getLast _ hne, Option.some.injEq] at hl
    rw [hl] at this
    exact this.symm
  have hpre' : '{' ∉ pre.dropWhile pyIsSpace :=
    fun hc => hpre ((List.dropWhile_sublist pyIsSpace).subset hc)
  have hpost' : '}' ∉ (post.reverse.dropWhile pyIsSpace).reverse := by
    intro hc
    rw [List.mem_reverse] at hc
    exact hpost (by
      have := (List.dropWhile_sublist pyIsSpace).subset hc
      rwa [List.mem_reverse] at this)
  rw [pyStripList_decomp pre t post d hd]
  set pre' := pre.dropWhile pyIsSpace with hpre'def
  set post' := (post.reverse.dropWhile pyIsSpace).reverse with hpost'def
  refine ⟨?_, ?_, ?_⟩
  · have h1 : pre' ++ ('{' :: t) ++ post' = pre' ++ '{' :: (t ++ post') := by simp
    rw [h1, pyFind_append_not_mem pre' ('{' :: (t ++ post')) '{' hpre']
    simp [pyFind]
  · unfold pyRfind
    have h2 : (pre' ++ ('{' :: t) ++ post').reverse =
        post'.reverse ++ '}' :: (d.reverse ++ pre'.reverse) := by
      rw [hd]
      simp [List.reverse_append]
    have hpost'' : '}' ∉ post'.reverse := by
      rw [List.mem_reverse]
      exact hpost'
    rw [h2, pyFind_append_not_mem post'.reverse ('}' :: (d.reverse ++ pre'.reverse))
      '}' hpost'']
    have hfind : pyFind ('}' :: (d.reverse ++ pre'.reverse)) '}' = some 0 := by
      simp [pyFind]
    rw [hfind]
    simp only [Option.map_some', Option.some.injEq, List.length_append,
      List.length_reverse, List.length_cons]
    omega
  · unfold pySlice
    have hlen : pre'.length + ('{' :: t).length - 1 + 1 =
        (pre' ++ ('{' :: t)).length := by
      simp only [List.length_append, List.length_cons]
      omega
    have h3 : pre' ++ ('{' :: t) ++ post' = (pre' ++ ('{' :: t)) ++ post' := by simp
    rw [hlen, h3, List.take_left]
    exact List.drop_left pre' ('{' :: t)

lemma isEmpty_eq_false_of_ne_nil {l : List Char} (h : l ≠ []) : l.isEmpty = false := by
  cases l with
  | nil => exact absurd rfl h
  | cons a t => rfl

/-- C1: stripped stdout of the form `pre ++ json ++ post` (no `{` in the
leading noise, no `}` in the trailing noise) has exactly the `json` span
extracted and parsed; absent braces or a failing parse yield the structured
error results. -/
theorem c1_run_sam_cli_json_extraction (env : SamEnv) (command : String)
    (appid : Int) (args : List String) (pre js post stdout : List Char) (v : JVal) :
    (env.pathExists (samCliPath env) = true →
     env.spawn (mkCmdArgs env command appid args) = .ok (pre ++ js ++ post) →
     '{' ∉ pre → '}' ∉ post → js.head? = some '{' → js.getLast? = some '}' →
     jsonLoads js = some v →
     runSamCli env command appid args = (v, [mkCmdArgs env command appid args])) ∧
    (env.pathExists (samCliPath env) = true →
     env.spawn (mkCmdArgs env command appid args) = .ok stdout → stdout ≠ [] →
     ('{' ∉ stdout ∨ '}' ∉ stdout) →
     runSamCli env command appid args =
       (errResult "Invalid output from SAM CLI",
        [mkCmdArgs env command appid args])) ∧
    (∀ i j : Nat, env.pathExists (samCliPath env) = true →
     env.spawn (mkCmdArgs env command appid args) = .ok stdout → stdout ≠ [] →
     pyFind (pyStripList stdout) '{' = some i →
     pyRfind (pyStripList stdout) '}' = some j →
     jsonLoads (pySlice (pyStripList stdout) i (j + 1)) = none →
     runSamCli env command appid args =
       (errResult "Failed to parse SAM CLI output",
        [mkCmdArgs env command appid args])) := by
  refine ⟨?_, ?_, ?_⟩
  · intro h1 h2 hpre hpost hh hl hj
    obtain ⟨t, rfl⟩ : ∃ t, js = '{' :: t := by
      cases js with
      | nil => cases hh
      | cons a t =>
        simp only [List.head?_cons, Option.some.injEq] at hh
        exact ⟨t, by rw [hh]⟩
    obtain ⟨hfind, hrfind, hslice⟩ := extraction_exact pre t post hpre hpost hl
    have hie : (pre ++ ('{' :: t) ++ post).isEmpty = false :=
      isEmpty_eq_false_of_ne_nil (by simp)
    have hassoc : pre ++ ('{' :: t) ++ post = pre ++ '{' :: (t ++ post) := by simp
    rw [hassoc] at hfind hrfind hslice
    have harith : (List.dropWhile pyIsSpace pre).length + ('{' :: t).length - 1 + 1 =
        (List.dropWhile pyIsSpace pre).length + t.length + 1 := by
      simp only [List.length_cons]
      omega
    rw [harith] at hslice
    unfold runSamCli
    simp [h1, h2, hie, hfind, hrfind, hslice, hj]
  · intro h1 h2 hne hdisj
    have hie : stdout.isEmpty = false := isEmpty_eq_false_of_ne_nil hne
    unfold runSamCli
    rcases hdisj with h | h
    · have hfn : pyFind (pyStripList stdout) '{' = none :=
        pyFind_eq_none _ _ (not_mem_pyStripList _ _ h)
      rcases hr : pyRfind (pyStripList stdout) '}' with _ | j <;>
        simp [h1, h2, hie, hfn, hr]
    · have hrn : pyRfind (pyStripList stdout) '}' = none := by
        have hfr : pyFind (pyStripList stdout).reverse '}' = none := by
          apply pyFind_eq_none
          rw [List.mem_reverse]
          exact not_mem_pyStripList _ _ h
        unfold pyRfind
        rw [hfr]
        rfl
      rcases hf : pyFind (pyStripList stdout) '{' with _ | i <;>
        simp [h1, h2, hie, hf, hrn]
  · intro i j h1 h2 hne hf hr hj
    have hie : stdout.isEmpty = false := isEmpty_eq_false_of_ne_nil hne
    unfold runSamCli
    simp [h1, h2, hie, hf, hr, hj]

/-- Witness for C1: the JSON object is extracted from between the
diagnostic prefix and the trailing newline and parsed. -/
theorem c1_run_sam_cli_json_extraction_witness :
    runSamCli jsonOutputEnv "get-achievements" 730 [] =
      (.jobj [("success", .jbool true)],
       [mkCmdArgs jsonOutputEnv "get-achievements" 730 []]) :=
  (c1_run_sam_cli_json_extraction jsonOutputEnv "get-achievements" 730 []
    "INFO: starting\n".data "\x7b\"success\": true\x7d".data "\n".data []
    (.jobj [("success", .jbool true)])).1 rfl rfl (by decide) (by decide) rfl
    (by decide) rfl
